import Mathlib

/-!
Verification of the nibe heat-pump client library core: register (coil) model,
integer codecs for the UDP (NibeGW) and fieldbus (Modbus) transports, frame
checksum, retry policy, batched reads and table-frame processing.

Machine integers are modelled as `Nat`/`Int` with explicit `% 2^w`; bytes are
`List Nat` entries below 256; Python `float` results of `/` are modelled as `ℚ`;
fallible code returns `Except`.
-/

deriving instance DecidableEq for Except

namespace Nibe

/-- Register width tags, from `size` strings used throughout the source
(`parser_map` in connection/encoders.py). -/
inductive CSize
  | u8 | s8 | u16 | s16 | u32 | s32
deriving DecidableEq, Repr

/-- Byte width of each size tag (sizeof of the construct parsers). -/
def CSize.nbytes : CSize → ℕ
  | .u8 | .s8 => 1
  | .u16 | .s16 => 2
  | .u32 | .s32 => 4

/-- Whether the size tag is a signed (two's complement) width;
`coil.size in ("s32", "s16", "s8")` in CoilDataCoderModbus. -/
def CSize.signed : CSize → Bool
  | .s8 | .s16 | .s32 => true
  | _ => false

/-- Coil `type` field: validated against number | date in Coil.__init__. -/
inductive CoilType
  | number | date
deriving DecidableEq, Repr

/-- A CoilData value: Python `Union[int, float, str, datetime.date]`.
Floats are modelled as rationals; a date is its day offset from 2007-01-01
(`MIN_DATE`). -/
inductive CoilValue
  | vInt (i : ℤ)
  | vNum (q : ℚ)
  | vStr (s : String)
  | vDate (d : ℤ)
deriving DecidableEq, Repr

/-- The register descriptor built by `Coil.__init__` (coil.py). `min`/`max`
are the scaled bounds `raw_min / factor`, `raw_max / factor`. -/
structure Coil where
  address : ℕ
  name : String
  title : String
  size : CSize
  factor : ℤ
  is_writable : Bool
  mappings : Option (List (String × String))
  raw_min : Option ℤ
  raw_max : Option ℤ
  min : Option ℚ
  max : Option ℚ
  ctype : CoilType
  is_boolean : Bool
  is_date : Bool
deriving DecidableEq, Repr

/-- `CoilData`: a value carrier bound to a coil (coil.py). `none` is Python
`None` ("unset"). -/
structure CoilData where
  coil : Coil
  value : Option CoilValue
deriving DecidableEq, Repr

/-- Python exceptions that can be raised inside the raw `_encode`/`_decode`
bodies and the coil helpers. `validation` covers ValidationError and its
subclass NoMappingException. -/
inductive PyErr
  | validation
  | assertion
  | valueError
  | constructError
  | typeError
  | overflow
deriving DecidableEq, Repr

/-- Errors surfaced by the public `encode`/`decode` wrappers
(CoilDataEncoder.encode/decode). `uncaught` marks a Python exception that the
wrapper's `except` clause does not catch and that escapes as-is. -/
inductive NibeError
  | encodeException
  | decodeException
  | uncaught (e : PyErr)
deriving DecidableEq, Repr

/-- `CoilDataEncoder.encode` catches ValueError, ConstructError and
ValidationError and re-raises EncodeException; everything else escapes. -/
def wrapEncode {α} (r : Except PyErr α) : Except NibeError α :=
  match r with
  | .ok a => .ok a
  | .error .validation => .error .encodeException
  | .error .valueError => .error .encodeException
  | .error .constructError => .error .encodeException
  | .error e => .error (.uncaught e)

/-- `CoilDataEncoder.decode` catches ValueError, AssertionError,
ConstructError and ValidationError and re-raises DecodeException. -/
def wrapDecode {α} (r : Except PyErr α) : Except NibeError α :=
  match r with
  | .ok a => .ok a
  | .error .validation => .error .decodeException
  | .error .assertion => .error .decodeException
  | .error .valueError => .error .decodeException
  | .error .constructError => .error .decodeException
  | .error e => .error (.uncaught e)

/-- `CoilDataEncoder._is_hitting_integer_limit` (encoders.py:80). -/
def is_hitting_integer_limit (sz : CSize) (v : ℤ) : Bool :=
  match sz with
  | .u8 => 0xFF ≤ v
  | .s8 => v ≤ -0x80
  | .u16 => 0xFFFF ≤ v
  | .s16 => v ≤ -0x8000
  | .u32 => 0xFFFFFFFF ≤ v
  | .s32 => v ≤ -0x80000000

/-- `Coil.is_raw_value_valid` (coil.py:151): only constrained by the raw
bounds that are present. -/
def is_raw_value_valid (c : Coil) (v : ℤ) : Bool :=
  (match c.raw_min with
   | some m => decide (m ≤ v)
   | none => true)
  && (match c.raw_max with
      | some m => decide (v ≤ m)
      | none => true)

/-- Python `str.upper` over the character sequence (kernel-computable model
of the ASCII label uppercasing done by set_mappings and the reverse lookup). -/
def strUpper (s : String) : String := String.mk (s.data.map Char.toUpper)

/-- Python dict lookup on an association list whose later entries override
earlier ones (dict construction order). -/
def dictFind (l : List (String × String)) (k : String) : Option String :=
  (l.reverse.find? (fun p => p.1 = k)).map (fun p => p.2)

/-- `Coil.get_mapping_for` (coil.py:115): looks up `str(value)` in the
mappings; a miss raises NoMappingException (a ValidationError). -/
def get_mapping_for (c : Coil) (v : ℤ) : Except PyErr String :=
  match c.mappings with
  | none => .error .validation
  | some maps =>
    match dictFind maps (toString v) with
    | some lbl => .ok lbl
    | none => .error .validation

/-- The reverse mapping dict of `Coil.set_mappings`: uppercased label back to
the original key (later keys override). -/
def reverseFind (maps : List (String × String)) (lbl : String) : Option String :=
  (maps.reverse.find? (fun p => p.2 = lbl)).map (fun p => p.1)

/-- `Coil.get_reverse_mapping_for` (coil.py:129): a non-string value raises
ValidationError, a missing label NoMappingException; `int(key)` of a
non-numeric stored key raises ValueError. -/
def get_reverse_mapping_for (c : Coil) (v : Option CoilValue) : Except PyErr ℤ :=
  match v with
  | some (.vStr s) =>
    match c.mappings with
    | none => .error .validation
    | some maps =>
      match reverseFind maps (strUpper s) with
      | some key =>
        match key.toInt? with
        | some i => .ok i
        | none => .error .valueError
      | none => .error .validation
  | _ => .error .validation

/-- Scaled-bound check of `CoilData._check_value_bounds` for numeric values
(Python int/float compared against `coil.min`/`coil.max`). -/
def qBoundsCheck (c : Coil) (q : ℚ) : Except PyErr Unit :=
  match c.min with
  | some m => if q < m then .error .validation else
    match c.max with
    | some M => if M < q then .error .validation else .ok ()
    | none => .ok ()
  | none =>
    match c.max with
    | some M => if M < q then .error .validation else .ok ()
    | none => .ok ()

/-- `CoilData._check_value_bounds` (coil.py:252). For a date coil the value is
checked against MIN_DATE/MAX_DATE (day offsets 0 and 0xFFFE); comparing a date
against a numeric bound is a Python TypeError. -/
def check_value_bounds (c : Coil) (v : CoilValue) : Except PyErr Unit :=
  if c.is_date then
    match v with
    | .vDate d => if d < 0 then .error .validation
                  else if (0xFFFE : ℤ) < d then .error .validation
                  else .ok ()
    | _ => .error .typeError
  else
    match v with
    | .vInt i => qBoundsCheck c (i : ℚ)
    | .vNum q => qBoundsCheck c q
    | .vDate _ =>
      match c.min, c.max with
      | none, none => .ok ()
      | _, _ => .error .typeError
    | .vStr _ => .error .typeError

/-- `CoilData.validate` (coil.py:227). -/
def validate (cd : CoilData) : Except PyErr Unit :=
  match cd.value with
  | none => .error .validation
  | some v =>
    if cd.coil.is_date && ! (match v with | .vDate _ => true | _ => false) then
      .error .validation
    else if cd.coil.mappings ≠ none then
      (get_reverse_mapping_for cd.coil (some v)).map (fun _ => ())
    else
      match v with
      | .vStr _ => .error .validation
      | w => check_value_bounds cd.coil w

/-- Python `int(...)` truncation toward zero on a float, modelled on ℚ. -/
def intTrunc (q : ℚ) : ℤ :=
  if 0 ≤ q then ⌊q⌋ else ⌈q⌉

/-- `CoilData.raw_value` (coil.py:204): days since MIN_DATE for dates, reverse
mapping for labels, `int(value * factor)` bound-checked for numbers. A value
of the wrong kind fails the `assert isinstance` checks. -/
def raw_value (cd : CoilData) : Except PyErr ℤ :=
  if cd.coil.is_date then
    match cd.value with
    | some (.vDate d) => .ok d
    | _ => .error .assertion
  else if cd.coil.mappings ≠ none then
    get_reverse_mapping_for cd.coil cd.value
  else
    match cd.value with
    | some (.vInt i) =>
      let raw := i * cd.coil.factor
      if is_raw_value_valid cd.coil raw then .ok raw else .error .assertion
    | some (.vNum q) =>
      let raw := intTrunc (q * (cd.coil.factor : ℚ))
      if is_raw_value_valid cd.coil raw then .ok raw else .error .assertion
    | _ => .error .assertion

/-- `CoilData.from_raw_value` (coil.py:184): bound assertion first, then date
conversion, mapping application, or scaling by `1/factor`. -/
def from_raw_value (c : Coil) (v : ℤ) : Except PyErr CoilData :=
  if ¬ is_raw_value_valid c v then .error .assertion
  else if c.is_date then .ok ⟨c, some (.vDate v)⟩
  else if c.mappings ≠ none then
    (get_mapping_for c v).map (fun lbl => ⟨c, some (.vStr lbl)⟩)
  else if c.factor = 1 then .ok ⟨c, some (.vInt v)⟩
  else .ok ⟨c, some (.vNum ((v : ℚ) / (c.factor : ℚ)))⟩

/-! ## Little-endian byte helpers -/

/-- `n` little-endian bytes of a natural number (the representation used by
the construct Int*l parsers and Python `int.to_bytes(..., "little")`). -/
def natToLE : ℕ → ℕ → List ℕ
  | 0, _ => []
  | n + 1, v => v % 256 :: natToLE n (v / 256)

/-- Read a little-endian byte list back into a natural number. -/
def leToNat : List ℕ → ℕ
  | [] => 0
  | b :: bs => b + 256 * leToNat bs

theorem natToLE_length (n v : ℕ) : (natToLE n v).length = n := by
  induction n generalizing v with
  | zero => rfl
  | succ n ih => simp [natToLE, ih]

theorem leToNat_natToLE (n v : ℕ) (h : v < 256 ^ n) :
    leToNat (natToLE n v) = v := by
  induction n generalizing v with
  | zero => simp [natToLE, leToNat]; omega
  | succ n ih =>
    have hd : v / 256 < 256 ^ n := by
      rw [Nat.div_lt_iff_lt_mul (by norm_num)]
      calc v < 256 ^ (n + 1) := h
        _ = 256 ^ n * 256 := by ring
    simp [natToLE, leToNat, ih (v / 256) hd]
    omega

/-- Two's-complement interpretation of a little-endian byte string, as done by
`int.from_bytes(..., "little", signed=...)`. -/
def fromBytesLE (signed : Bool) (bs : List ℕ) : ℤ :=
  let u := leToNat bs
  if signed ∧ 0 < bs.length ∧ 2 ^ (8 * bs.length - 1) ≤ u then
    (u : ℤ) - 2 ^ (8 * bs.length)
  else (u : ℤ)

/-! ## NibeGW byte-stream codec (CoilDataEncoderNibeGw, encoders.py:97) -/

/-- Modelled from the spec: the `WordSwapped` subconstruct of nibe/parsers.py
is imported by the encoders but its definition is not in the sources; per
spec §4.2 ("Word-swap. 32-bit values cross two 16-bit words; the wire may
transmit high-word-first or low-word-first") it exchanges the two 16-bit
halves of a 4-byte value. -/
def wordSwap (bs : List ℕ) : List ℕ :=
  bs.drop 2 ++ bs.take 2

/-- Range accepted by the construct Int parsers when building
(a ConstructError is raised outside it). -/
def inRange (sz : CSize) (v : ℤ) : Bool :=
  if sz.signed then
    decide (-(2 ^ (8 * sz.nbytes - 1)) ≤ v) && decide (v < 2 ^ (8 * sz.nbytes - 1))
  else
    decide (0 ≤ v) && decide (v < 2 ^ (8 * sz.nbytes))

/-- Build the byte string of a raw integer with the plain little-endian
construct parser of the width; out-of-range values raise ConstructError. -/
def buildIntLE (sz : CSize) (v : ℤ) : Except PyErr (List ℕ) :=
  if inRange sz v then
    .ok (natToLE sz.nbytes (v % 2 ^ (8 * sz.nbytes)).toNat)
  else .error .constructError

/-- Parse with the plain little-endian parser of the width: the parser reads
exactly `sizeof` bytes from the front of the stream. -/
def parseIntLE (sz : CSize) (bs : List ℕ) : ℤ :=
  fromBytesLE sz.signed (bs.take sz.nbytes)

/-- `CoilDataEncoderNibeGw._get_parser` (encoders.py:123): 32-bit widths with
word swap unset raise ValueError; a truthy `word_swap` selects the plain
parser and a falsy one the word-swapped parser ("yes, it is visa versa").
The returned flag says whether the word-swapped variant is used. -/
def getParserSwap (ws : Option Bool) (sz : CSize) : Except PyErr Bool :=
  if (sz = .u32 ∨ sz = .s32) ∧ ws = none then .error .valueError
  else .ok (ws ≠ some true)

/-- Parse as selected by `_get_parser`: the word-swapped variant first
exchanges the two halves of the four bytes it reads (only 32-bit widths have
a swapped variant). -/
def parseNibe (sz : CSize) (swapped : Bool) (bs : List ℕ) : ℤ :=
  if sz.nbytes = 4 ∧ swapped then parseIntLE sz (wordSwap (bs.take 4))
  else parseIntLE sz bs

/-- Build as selected by `_get_parser`. -/
def buildNibe (sz : CSize) (swapped : Bool) (v : ℤ) : Except PyErr (List ℕ) :=
  (buildIntLE sz v).map (fun l =>
    if sz.nbytes = 4 ∧ swapped then wordSwap l else l)

/-- `Padded(4, parser)`: right-pad the built bytes with zeros to 4 bytes
(`CoilDataEncoderNibeGw._pad`). -/
def pad4 (l : List ℕ) : List ℕ :=
  l ++ List.replicate (4 - l.length) 0

/-- `CoilDataEncoderNibeGw.encode` (validate, then pad the built raw value),
with the public wrapper translating failures to EncodeException. -/
def nibeEncode (ws : Option Bool) (cd : CoilData) : Except NibeError (List ℕ) :=
  wrapEncode (
    (validate cd).bind (fun _ =>
      (getParserSwap ws cd.coil.size).bind (fun sw =>
        (raw_value cd).bind (fun rv =>
          (buildNibe cd.coil.size sw rv).map pad4))))

/-- `CoilDataEncoderNibeGw.decode` (encoders.py:111): asserts that at least
`sizeof` bytes are present, parses, returns an unset CoilData at the integer
limit, otherwise `CoilData.from_raw_value`; failures become DecodeException. -/
def nibeDecode (ws : Option Bool) (c : Coil) (raw : List ℕ) :
    Except NibeError CoilData :=
  wrapDecode (
    (getParserSwap ws c.size).bind (fun sw =>
      if raw.length < c.size.nbytes then .error .assertion
      else if is_hitting_integer_limit c.size (parseNibe c.size sw raw) then
        .ok ⟨c, none⟩
      else from_raw_value c (parseNibe c.size sw raw)))

/-! ## Modbus register-pair codec (CoilDataCoderModbus, encoders.py:136) -/

/-- `raw_value.to_bytes(8, "little", signed=signed)`; out-of-range values
raise OverflowError (not caught by the encode wrapper). -/
def toBytes8 (signed : Bool) (v : ℤ) : Except PyErr (List ℕ) :=
  if (signed ∧ -(2 ^ 63) ≤ v ∧ v < 2 ^ 63) ∨ (¬ signed ∧ 0 ≤ v ∧ v < 2 ^ 64) then
    .ok (natToLE 8 (v % 2 ^ 64).toNat)
  else .error .overflow

/-- `CoilDataCoderModbus._encode` (encoders.py:142): validate, take the raw
value's 8 little-endian bytes, and emit one 16-bit register for widths up to
16 bits or two registers for 32-bit widths, ordered by the word-swap flag. -/
def modbusEncode (ws : Option Bool) (cd : CoilData) : Except NibeError (List ℕ) :=
  wrapEncode (
    (validate cd).bind (fun _ =>
      (raw_value cd).bind (fun rv =>
        (toBytes8 cd.coil.size.signed rv).map (fun rb =>
          if cd.coil.size = .u32 ∨ cd.coil.size = .s32 then
            if ws = some true then
              [leToNat (rb.take 2), leToNat ((rb.drop 2).take 2)]
            else
              [leToNat ((rb.drop 2).take 2), leToNat (rb.take 2)]
          else [leToNat (rb.take 2)]))))

/-- `CoilDataCoderModbus._decode` (encoders.py:165): concatenate each
register's two little-endian bytes in list order and interpret the whole as a
little-endian integer; the word-swap flag is not consulted. A register value
that does not fit `to_bytes(2, ...)` raises OverflowError. -/
def modbusDecode (c : Coil) (values : List ℕ) : Except NibeError CoilData :=
  wrapDecode (
    if values.any (fun v => 2 ^ 16 ≤ v) then .error .overflow
    else
      let rb := values.flatMap (fun v => natToLE 2 v)
      let rv := fromBytesLE c.size.signed rb
      if is_hitting_integer_limit c.size rv then .ok ⟨c, none⟩
      else from_raw_value c rv)

/-- A plain coil of the given width: factor 1, writable, no mapping, no
bounds, numeric type (the shape quantified over in the round-trip claims). -/
def basicCoil (sz : CSize) : Coil :=
  { address := 40001, name := "x", title := "x", size := sz, factor := 1,
    is_writable := true, mappings := none, raw_min := none, raw_max := none,
    min := none, max := none, ctype := .number, is_boolean := false,
    is_date := false }

/-! ## Round-trip lemmas for the byte-stream codec -/

theorem except_bind_ok {ε α β : Type} (a : α) (f : α → Except ε β) :
    (Except.ok a : Except ε α).bind f = f a := rfl

theorem except_bind_err {ε α β : Type} (e : ε) (f : α → Except ε β) :
    (Except.error e : Except ε α).bind f = .error e := rfl

theorem except_map_ok {ε α β : Type} (a : α) (f : α → β) :
    (Except.ok a : Except ε α).map f = .ok (f a) := rfl

theorem except_map_err {ε α β : Type} (e : ε) (f : α → β) :
    (Except.error e : Except ε α).map f = .error e := rfl

theorem take_of_len_eq {α : Type} (l : List α) (n : ℕ) (h : l.length = n) :
    l.take n = l := by
  subst h
  simp

theorem fromBytesLE_natToLE_unsigned (n u : ℕ) (hu : u < 256 ^ n) :
    fromBytesLE false (natToLE n u) = (u : ℤ) := by
  simp [fromBytesLE, leToNat_natToLE n u hu]

theorem fromBytesLE_natToLE_signed (n u : ℕ) (hu : u < 256 ^ n) :
    fromBytesLE true (natToLE n u) =
      if 0 < n ∧ 2 ^ (8 * n - 1) ≤ u then (u : ℤ) - 2 ^ (8 * n) else (u : ℤ) := by
  simp only [fromBytesLE, leToNat_natToLE n u hu, natToLE_length]
  split <;> split <;> simp_all

theorem mod_toNat_lt (v : ℤ) (n : ℕ) : (v % 2 ^ (8 * n)).toNat < 256 ^ n := by
  have hM : (2 : ℤ) ^ (8 * n) = ((256 ^ n : ℕ) : ℤ) := by
    push_cast
    rw [pow_mul]
    norm_num
  have h2 : (0 : ℤ) < 2 ^ (8 * n) := by positivity
  have hlt2 : v % 2 ^ (8 * n) < 2 ^ (8 * n) := Int.emod_lt_of_pos v h2
  have hge : 0 ≤ v % 2 ^ (8 * n) := Int.emod_nonneg v (ne_of_gt h2)
  rw [hM] at hlt2
  omega

theorem wordSwap_wordSwap (l : List ℕ) (h : l.length = 4) :
    wordSwap (wordSwap l) = l := by
  match l, h with
  | [a, b, c, d], _ => rfl

theorem wordSwap_length (l : List ℕ) (h : l.length = 4) :
    (wordSwap l).length = 4 := by
  simp [wordSwap]
  omega

theorem pad4_of_len4 (l : List ℕ) (h : l.length = 4) : pad4 l = l := by
  simp [pad4, h]

theorem pad4_take_eq (l : List ℕ) (n : ℕ) (h : l.length = n) :
    (pad4 l).take n = l := by
  subst h
  simp [pad4, List.take_left]

theorem pad4_length (l : List ℕ) (h : l.length ≤ 4) : (pad4 l).length = 4 := by
  simp [pad4]
  omega

/-- The byte string `CoilDataEncoderNibeGw._encode` emits (before padding)
for a raw value of the given width under a set word-swap flag. -/
def encBytesNibe (ws : Bool) (sz : CSize) (v : ℤ) : List ℕ :=
  if sz.nbytes = 4 ∧ ws = false then
    wordSwap (natToLE sz.nbytes (v % 2 ^ (8 * sz.nbytes)).toNat)
  else natToLE sz.nbytes (v % 2 ^ (8 * sz.nbytes)).toNat

theorem getParserSwap_some (ws : Bool) (sz : CSize) :
    getParserSwap (some ws) sz = .ok (!ws) := by
  cases ws <;> simp [getParserSwap]

theorem encBytesNibe_length (ws : Bool) (sz : CSize) (v : ℤ) :
    (encBytesNibe ws sz v).length = sz.nbytes := by
  unfold encBytesNibe
  split
  case isTrue h =>
    rw [h.1]
    exact wordSwap_length _ (by rw [natToLE_length])
  case isFalse h =>
    exact natToLE_length _ _

theorem nbytes_le_four (sz : CSize) : sz.nbytes ≤ 4 := by
  cases sz <;> simp [CSize.nbytes]

theorem parse_encBytes_core (sz : CSize) (v : ℤ) (h : inRange sz v = true) :
    fromBytesLE sz.signed (natToLE sz.nbytes (v % 2 ^ (8 * sz.nbytes)).toNat) = v := by
  cases sz with
  | u8 =>
    simp [inRange, CSize.signed, CSize.nbytes] at h ⊢
    rw [fromBytesLE_natToLE_unsigned 1 (v % 256).toNat (by omega)]
    omega
  | s8 =>
    simp [inRange, CSize.signed, CSize.nbytes] at h ⊢
    rw [fromBytesLE_natToLE_signed 1 (v % 256).toNat (by omega)]
    split <;> omega
  | u16 =>
    simp [inRange, CSize.signed, CSize.nbytes] at h ⊢
    rw [fromBytesLE_natToLE_unsigned 2 (v % 65536).toNat (by omega)]
    omega
  | s16 =>
    simp [inRange, CSize.signed, CSize.nbytes] at h ⊢
    rw [fromBytesLE_natToLE_signed 2 (v % 65536).toNat (by omega)]
    split <;> omega
  | u32 =>
    simp [inRange, CSize.signed, CSize.nbytes] at h ⊢
    rw [fromBytesLE_natToLE_unsigned 4 (v % 4294967296).toNat (by omega)]
    omega
  | s32 =>
    simp [inRange, CSize.signed, CSize.nbytes] at h ⊢
    rw [fromBytesLE_natToLE_signed 4 (v % 4294967296).toNat (by omega)]
    split <;> omega

theorem parseNibe_pad_swap (sz : CSize) (ws : Bool) (l : List ℕ)
    (hlen : l.length = sz.nbytes) :
    parseNibe sz (!ws) (pad4 (if sz.nbytes = 4 ∧ ws = false then wordSwap l else l)) =
      fromBytesLE sz.signed l := by
  by_cases h4 : sz.nbytes = 4
  · have hlen4 : l.length = 4 := hlen.trans h4
    cases ws with
    | false =>
      have hsw : (wordSwap l).length = 4 := wordSwap_length _ hlen4
      rw [if_pos ⟨h4, rfl⟩, pad4_of_len4 _ hsw]
      unfold parseNibe
      rw [if_pos ⟨h4, rfl⟩, take_of_len_eq _ 4 hsw, wordSwap_wordSwap _ hlen4]
      unfold parseIntLE
      rw [take_of_len_eq _ _ hlen]
    | true =>
      rw [if_neg (fun hc => by simpa using hc.2), pad4_of_len4 _ hlen4]
      unfold parseNibe
      rw [if_neg (fun hc => by simpa using hc.2)]
      unfold parseIntLE
      rw [take_of_len_eq _ _ hlen]
  · rw [if_neg (fun hc => h4 hc.1)]
    unfold parseNibe
    rw [if_neg (fun hc => h4 hc.1)]
    unfold parseIntLE
    rw [pad4_take_eq _ _ hlen]

theorem parseNibe_encBytes (ws : Bool) (sz : CSize) (v : ℤ)
    (h : inRange sz v = true) :
    parseNibe sz (!ws) (pad4 (encBytesNibe ws sz v)) = v := by
  unfold encBytesNibe
  rw [parseNibe_pad_swap sz ws _ (natToLE_length _ _)]
  exact parse_encBytes_core sz v h

theorem validate_basic (sz : CSize) (v : ℤ) :
    validate ⟨basicCoil sz, some (.vInt v)⟩ = .ok () := rfl

theorem raw_value_basic (sz : CSize) (v : ℤ) :
    raw_value ⟨basicCoil sz, some (.vInt v)⟩ = .ok v := by
  simp [raw_value, basicCoil, is_raw_value_valid]

theorem nibeEncode_basic (ws : Bool) (sz : CSize) (v : ℤ)
    (h : inRange sz v = true) :
    nibeEncode (some ws) ⟨basicCoil sz, some (.vInt v)⟩ =
      .ok (pad4 (encBytesNibe ws sz v)) := by
  unfold nibeEncode
  rw [validate_basic, except_bind_ok, getParserSwap_some, except_bind_ok,
    raw_value_basic, except_bind_ok]
  show wrapEncode ((buildNibe sz (!ws) v).map pad4) = _
  unfold buildNibe buildIntLE
  rw [if_pos h, except_map_ok, except_map_ok]
  unfold encBytesNibe wrapEncode
  simp [Bool.not_eq_true']

theorem from_raw_value_basic (sz : CSize) (v : ℤ) :
    from_raw_value (basicCoil sz) v = .ok ⟨basicCoil sz, some (.vInt v)⟩ := by
  simp [from_raw_value, basicCoil, is_raw_value_valid]

theorem nibeDecode_encBytes (ws : Bool) (sz : CSize) (v : ℤ)
    (h : inRange sz v = true) :
    nibeDecode (some ws) (basicCoil sz) (pad4 (encBytesNibe ws sz v)) =
      if is_hitting_integer_limit sz v then .ok ⟨basicCoil sz, none⟩
      else .ok ⟨basicCoil sz, some (.vInt v)⟩ := by
  have hlen : (pad4 (encBytesNibe ws sz v)).length = 4 :=
    pad4_length _ (by rw [encBytesNibe_length]; exact nbytes_le_four sz)
  unfold nibeDecode
  rw [getParserSwap_some, except_bind_ok]
  have hsz : (basicCoil sz).size = sz := rfl
  simp only [hsz]
  rw [if_neg (by rw [hlen]; exact not_lt.mpr (nbytes_le_four sz))]
  simp only [parseNibe_encBytes ws sz v h]
  by_cases hlim : is_hitting_integer_limit sz v = true
  · rw [if_pos hlim, if_pos hlim]
    rfl
  · rw [if_neg hlim, if_neg hlim, from_raw_value_basic]
    rfl

/-- Claim C1: for every width and every word-swap setting, the NibeGW codec
decodes the bytes it encoded for any in-range raw integer back to the same
integer when the integer does not hit the width's limit sentinel; at the
sentinel (detected as at-or-above the limit for unsigned widths and
at-or-below it for signed ones) decoding yields an unset value without an
error, and encoding an unset value fails with an encode error. -/
theorem c1_integer_codec_roundtrip (ws : Bool) (sz : CSize) (x : ℤ) :
    (inRange sz x = true → is_hitting_integer_limit sz x = false →
      (nibeEncode (some ws) ⟨basicCoil sz, some (.vInt x)⟩).bind
        (nibeDecode (some ws) (basicCoil sz)) = .ok ⟨basicCoil sz, some (.vInt x)⟩)
  ∧ (inRange sz x = true → is_hitting_integer_limit sz x = true →
      (nibeEncode (some ws) ⟨basicCoil sz, some (.vInt x)⟩).bind
        (nibeDecode (some ws) (basicCoil sz)) = .ok ⟨basicCoil sz, none⟩)
  ∧ nibeEncode (some ws) ⟨basicCoil sz, none⟩ = .error .encodeException := by
  refine ⟨?_, ?_, ?_⟩
  · intro h hl
    rw [nibeEncode_basic ws sz x h, except_bind_ok, nibeDecode_encBytes ws sz x h,
      if_neg (by simp [hl])]
  · intro h hl
    rw [nibeEncode_basic ws sz x h, except_bind_ok, nibeDecode_encBytes ws sz x h,
      if_pos hl]
  · rfl

/-- Witness for C1 at concrete inputs: s16 value 151 round-trips, u8 value 255
is the sentinel and decodes to unset, and encoding an unset u32 value fails. -/
theorem c1_integer_codec_roundtrip_witness :
    ((nibeEncode (some true) ⟨basicCoil .s16, some (.vInt 151)⟩).bind
        (nibeDecode (some true) (basicCoil .s16)) =
      .ok ⟨basicCoil .s16, some (.vInt 151)⟩)
  ∧ ((nibeEncode (some false) ⟨basicCoil .u8, some (.vInt 255)⟩).bind
        (nibeDecode (some false) (basicCoil .u8)) = .ok ⟨basicCoil .u8, none⟩)
  ∧ nibeEncode (some true) ⟨basicCoil .u32, none⟩ = .error .encodeException :=
  ⟨(c1_integer_codec_roundtrip true .s16 151).1 (by decide) (by decide),
   (c1_integer_codec_roundtrip false .u8 255).2.1 (by decide) (by decide),
   (c1_integer_codec_roundtrip true .u32 0).2.2⟩

/-! ## Claim C2: word-swap symmetry of the two codecs -/

/-- Claim C2 (NibeGW half): for either word-swap setting, the byte-stream
codec decodes its own encoding of any in-range non-sentinel 32-bit raw value
back to the same value. -/
theorem c2_nibegw_wordswap_roundtrip (ws : Bool) (sz : CSize) (x : ℤ)
    (h32 : sz = .u32 ∨ sz = .s32) (h : inRange sz x = true)
    (hl : is_hitting_integer_limit sz x = false) :
    (nibeEncode (some ws) ⟨basicCoil sz, some (.vInt x)⟩).bind
      (nibeDecode (some ws) (basicCoil sz)) =
      .ok ⟨basicCoil sz, some (.vInt x)⟩ := by
  rw [nibeEncode_basic ws sz x h, except_bind_ok, nibeDecode_encBytes ws sz x h,
    if_neg (by simp [hl])]

/-- Claim C2 counterexample (code bug): with word_swap=false the register-pair
codec encodes the s32 value 1 as the register list [0, 1], but its decoder
ignores the word-swap flag and reassembles the registers low-word-first,
returning 65536 instead of 1. With word_swap=true the same value round-trips.
The repository's own tests (test_encoders.py, test_modbus_decode) expect the
word_swap=false decode of [0x0000, 0x5432] to be 0x5432, which this decoder
also fails. -/
theorem c2_modbus_wordswap_false_no_roundtrip :
    modbusEncode (some false) ⟨basicCoil .s32, some (.vInt 1)⟩ = .ok [0, 1]
  ∧ modbusDecode (basicCoil .s32) [0, 1] =
      .ok ⟨basicCoil .s32, some (.vInt 65536)⟩
  ∧ (modbusEncode (some true) ⟨basicCoil .s32, some (.vInt 1)⟩).bind
      (modbusDecode (basicCoil .s32)) = .ok ⟨basicCoil .s32, some (.vInt 1)⟩
  ∧ modbusDecode (basicCoil .s32) [0x0000, 0x5432] =
      .ok ⟨basicCoil .s32, some (.vInt 0x54320000)⟩ := by
  refine ⟨?_, ?_, ?_, ?_⟩ <;> decide

/-! ## Claim C5: frame checksum -/

/-- `xor8` (nibegw.py:504): XOR of all body bytes, with the value 0x5C
replaced by 0xC5. The Python `reduce(xor, data)` over a nonempty byte string
equals this left fold from 0. -/
def xor8 (data : List ℕ) : ℕ :=
  let chksum := data.foldl Nat.xor 0
  if chksum = 0x5C then 0xC5 else chksum

/-- Construct `Checksum(Int8ub, xor8, this.fields.data)` as used by the
`Response`/`Request` structs (nibegw.py:770): on build the transmitted byte is
`xor8(data)`. -/
def checksumBuild (data : List ℕ) : ℕ := xor8 data

/-- Construct `Checksum` verification on parse: the frame is accepted exactly
when the transmitted byte equals `xor8(data)`; otherwise ChecksumError. -/
def verifyChecksum (data : List ℕ) (transmitted : ℕ) : Bool :=
  transmitted = xor8 data

/-- Claim C5 counterexample: the body 00 20 6C 01 11 XORs to 0x5C, yet the
verifier rejects a transmitted checksum of 0x5C for it (only 0xC5 is
accepted), contradicting "the verifier accepts both interpretations". -/
theorem c5_checksum_counterexample :
    [0x00, 0x20, 0x6C, 0x01, 0x11].foldl Nat.xor 0 = 0x5C
  ∧ verifyChecksum [0x00, 0x20, 0x6C, 0x01, 0x11] 0x5C = false
  ∧ verifyChecksum [0x00, 0x20, 0x6C, 0x01, 0x11] 0xC5 = true := by
  decide

/-- Claim C5 (amended): the transmitted checksum is the XOR of the body bytes
except that a computed 0x5C is transmitted as 0xC5; the verifier accepts
exactly the value `xor8` computes — for a body XORing to 0x5C only the
transmitted value 0xC5, never 0x5C — and rejects every other value. -/
theorem c5_checksum_amended (data : List ℕ) (t : ℕ) :
    (data.foldl Nat.xor 0 ≠ 0x5C →
      checksumBuild data = data.foldl Nat.xor 0
        ∧ (verifyChecksum data t = true ↔ t = data.foldl Nat.xor 0))
  ∧ (data.foldl Nat.xor 0 = 0x5C →
      checksumBuild data = 0xC5
        ∧ verifyChecksum data 0xC5 = true
        ∧ (t ≠ 0xC5 → verifyChecksum data t = false)) := by
  constructor
  · intro h
    constructor
    · simp [checksumBuild, xor8, h]
    · simp [verifyChecksum, xor8, h]
  · intro h
    refine ⟨by simp [checksumBuild, xor8, h], by simp [verifyChecksum, xor8, h], ?_⟩
    intro ht
    simp [verifyChecksum, xor8, h, ht]

/-- Witness for C5 (amended) at concrete frames: a body XORing to 0x5D is
transmitted and verified as 0x5D, and a body XORing to 0x5C builds 0xC5,
verifies 0xC5 and rejects 0x5C. -/
theorem c5_checksum_amended_witness :
    (checksumBuild [0x5C, 0x01] = [0x5C, 0x01].foldl Nat.xor 0
      ∧ (verifyChecksum [0x5C, 0x01] 0x5D = true ↔
          (0x5D : ℕ) = [0x5C, 0x01].foldl Nat.xor 0))
  ∧ (checksumBuild [0x5C] = 0xC5
      ∧ verifyChecksum [0x5C] 0xC5 = true
      ∧ verifyChecksum [0x5C] 0x5C = false) := by
  constructor
  · exact (c5_checksum_amended [0x5C, 0x01] 0x5D).1 (by decide)
  · obtain ⟨h1, h2, h3⟩ := (c5_checksum_amended [0x5C] 0x5C).2 (by decide)
    exact ⟨h1, h2, h3 (by decide)⟩

/-! ## Exception taxonomy (exceptions.py) and retry policy -/

/-- The exception classes of exceptions.py that the connection paths raise.
`writeIOBase`/`readIOBase` stand for WriteIOException/ReadIOException raised
directly; `writeBase`/`readBase` for plain WriteException/ReadException. -/
inductive NibeExc
  | addressInUse
  | coilNotFound
  | decodeFailure
  | validationFailure
  | encodeFailure
  | writeBase
  | writeDenied
  | writeIOBase
  | coilWriteSend
  | writeTimeout
  | readBase
  | readIOBase
  | readSend
  | readTimeout
  | productInfoReadTimeout
  | modelIdentificationFailed
deriving DecidableEq, Repr, Fintype

/-- `isinstance(e, ReadIOException)` per the class hierarchy of exceptions.py:
ReadSendException, ReadTimeoutException and ProductInfoReadTimeoutException
subclass ReadIOException; plain ReadException does not. -/
def isReadIOException : NibeExc → Bool
  | .readIOBase | .readSend | .readTimeout | .productInfoReadTimeout => true
  | _ => false

/-- `isinstance(e, WriteIOException)` per exceptions.py:
CoilWriteSendException and WriteTimeoutException subclass WriteIOException;
WriteDeniedException subclasses only WriteException. -/
def isWriteIOException : NibeExc → Bool
  | .writeIOBase | .coilWriteSend | .writeTimeout => true
  | _ => false

/-! ## Claim C7: MODBUS_WRITE_RESP result handling -/

/-- Construct `Flag`: a single byte parsed as false iff it is zero
(`ModbusWriteResp = Struct("result" / Flag)`, nibegw.py:702). -/
def parseFlag (b : ℕ) : Bool := b ≠ 0

/-- `NibeGW.write_coil` result handling (nibegw.py:379): the write future is
resolved with the Flag-parsed result byte of the awaited MODBUS_WRITE_RESP;
a falsy result raises WriteDeniedException, a truthy one returns. -/
def nibegwWriteOutcome (resultByte : ℕ) : Except NibeExc Unit :=
  if parseFlag resultByte then .ok () else .error .writeDenied

/-- Claim C7: after a UDP write request, the awaited MODBUS_WRITE_RESP result
byte decides the outcome — result 0 fails with the write-denied error and
result 1 succeeds. -/
theorem c7_write_resp_result :
    nibegwWriteOutcome 0 = .error .writeDenied
  ∧ nibegwWriteOutcome 1 = .ok () := by
  decide

/-! ## Claim C8: fieldbus address routing (modbus.py) -/

/-- `split_modbus_data` (modbus.py:29): function-class quotient, zero-based
register offset and register count for a coil. -/
def split_modbus_data (c : Coil) : ℕ × ℤ × ℕ :=
  (c.address / 10000, ((c.address % 10000 : ℕ) : ℤ) - 1,
   if c.size = .u32 ∨ c.size = .s32 then 2 else 1)

/-- The transport operation a read or write is dispatched to. -/
inductive ModbusOp
  | readCoilsOp
  | readDiscreteInputs
  | readInputRegisters
  | readHoldingRegisters
  | writeRegistersOp
  | writeCoilsOp
deriving DecidableEq, Repr

/-- `Modbus.read_coil` dispatch (modbus.py:105): entity type 3 reads input
registers, 4 holding registers, 1 discrete inputs, 0 coils; anything else
raises ReadException. -/
def modbusReadRoute (c : Coil) : Except NibeExc (ModbusOp × ℤ × ℕ) :=
  let s := split_modbus_data c
  if s.1 = 3 then .ok (.readInputRegisters, s.2.1, s.2.2)
  else if s.1 = 4 then .ok (.readHoldingRegisters, s.2.1, s.2.2)
  else if s.1 = 1 then .ok (.readDiscreteInputs, s.2.1, s.2.2)
  else if s.1 = 0 then .ok (.readCoilsOp, s.2.1, s.2.2)
  else .error .readBase

/-- `Modbus.write_coil` dispatch (modbus.py:151): entity type 4 writes
registers, 0 writes coils; anything else raises ReadIOException. -/
def modbusWriteRoute (c : Coil) : Except NibeExc (ModbusOp × ℤ × ℕ) :=
  let s := split_modbus_data c
  if s.1 = 4 then .ok (.writeRegistersOp, s.2.1, s.2.2)
  else if s.1 = 0 then .ok (.writeCoilsOp, s.2.1, s.2.2)
  else .error .readIOBase

/-- Claim C8: the function class is selected by address / 10000 (0 coil,
1 discrete input, 3 input register, 4 holding register), the zero-based
offset handed to the transport is (address mod 10000) - 1, the register count
is 2 for 32-bit widths and 1 otherwise, and any other quotient fails with a
read/write error. -/
theorem c8_modbus_routing (c : Coil) :
    (c.address / 10000 = 0 →
      modbusReadRoute c = .ok (.readCoilsOp, ((c.address % 10000 : ℕ) : ℤ) - 1,
        if c.size = .u32 ∨ c.size = .s32 then 2 else 1))
  ∧ (c.address / 10000 = 1 →
      modbusReadRoute c = .ok (.readDiscreteInputs, ((c.address % 10000 : ℕ) : ℤ) - 1,
        if c.size = .u32 ∨ c.size = .s32 then 2 else 1))
  ∧ (c.address / 10000 = 3 →
      modbusReadRoute c = .ok (.readInputRegisters, ((c.address % 10000 : ℕ) : ℤ) - 1,
        if c.size = .u32 ∨ c.size = .s32 then 2 else 1))
  ∧ (c.address / 10000 = 4 →
      modbusReadRoute c = .ok (.readHoldingRegisters, ((c.address % 10000 : ℕ) : ℤ) - 1,
        if c.size = .u32 ∨ c.size = .s32 then 2 else 1))
  ∧ (c.address / 10000 = 4 →
      modbusWriteRoute c = .ok (.writeRegistersOp, ((c.address % 10000 : ℕ) : ℤ) - 1,
        if c.size = .u32 ∨ c.size = .s32 then 2 else 1))
  ∧ (c.address / 10000 = 0 →
      modbusWriteRoute c = .ok (.writeCoilsOp, ((c.address % 10000 : ℕ) : ℤ) - 1,
        if c.size = .u32 ∨ c.size = .s32 then 2 else 1))
  ∧ (¬ (c.address / 10000 = 0 ∨ c.address / 10000 = 1 ∨ c.address / 10000 = 3
        ∨ c.address / 10000 = 4) →
      modbusReadRoute c = .error .readBase
        ∧ modbusWriteRoute c = .error .readIOBase) := by
  refine ⟨?_, ?_, ?_, ?_, ?_, ?_, ?_⟩ <;> intro h <;>
    simp [modbusReadRoute, modbusWriteRoute, split_modbus_data, h] <;>
    simp_all

/-- Witness for C8: a u32 holding register at 40002 maps to holding-register
reads and register writes at offset 1 with count 2; address 20001 has
quotient 2 and fails both routes. -/
theorem c8_modbus_routing_witness :
    modbusReadRoute { basicCoil .u32 with address := 40002 } =
      .ok (.readHoldingRegisters, 1, 2)
  ∧ modbusWriteRoute { basicCoil .u32 with address := 40002 } =
      .ok (.writeRegistersOp, 1, 2)
  ∧ modbusReadRoute { basicCoil .u8 with address := 20001 } = .error .readBase
  ∧ modbusWriteRoute { basicCoil .u8 with address := 20001 } =
      .error .readIOBase := by
  have h4 := (c8_modbus_routing { basicCoil .u32 with address := 40002 })
  have h2 := (c8_modbus_routing { basicCoil .u8 with address := 20001 })
  refine ⟨?_, ?_, ?_, ?_⟩
  · have := h4.2.2.2.1 (by decide)
    simpa using this
  · have := h4.2.2.2.2.1 (by decide)
    simpa using this
  · exact (h2.2.2.2.2.2.2 (by decide)).1
  · exact (h2.2.2.2.2.2.2 (by decide)).2

/-! ## Claim C10: raw bounds are enforced inside decode -/

theorem is_raw_value_valid_false_of_out_of_bounds (c : Coil) (v : ℤ)
    (hout : (∃ m, c.raw_min = some m ∧ v < m) ∨ (∃ M, c.raw_max = some M ∧ M < v)) :
    is_raw_value_valid c v = false := by
  unfold is_raw_value_valid
  rcases hout with ⟨m, hm, hv⟩ | ⟨M, hM, hv⟩
  · rw [hm]
    simp [not_le.mpr hv]
  · rw [hM]
    rcases hmin : c.raw_min with _ | m <;> simp [not_le.mpr hv]

/-- Claim C10: for a coil that declares a raw lower or upper bound, decoding
a non-sentinel in-range raw integer lying outside those bounds never returns
a value — `CoilData.from_raw_value` fails its bound assertion before any
mapping or scaling, and the public decode surfaces a decode error. -/
theorem c10_decode_rejects_out_of_bounds (ws : Bool) (c : Coil) (v : ℤ)
    (hsz : inRange c.size v = true)
    (hlim : is_hitting_integer_limit c.size v = false)
    (hout : (∃ m, c.raw_min = some m ∧ v < m) ∨ (∃ M, c.raw_max = some M ∧ M < v)) :
    from_raw_value c v = .error .assertion
  ∧ nibeDecode (some ws) c (pad4 (encBytesNibe ws c.size v)) =
      .error .decodeException := by
  have hvalid := is_raw_value_valid_false_of_out_of_bounds c v hout
  have hfrv : from_raw_value c v = .error .assertion := by
    unfold from_raw_value
    rw [if_pos (by simp [hvalid])]
  refine ⟨hfrv, ?_⟩
  have hlen : (pad4 (encBytesNibe ws c.size v)).length = 4 :=
    pad4_length _ (by rw [encBytesNibe_length]; exact nbytes_le_four c.size)
  unfold nibeDecode
  rw [getParserSwap_some, except_bind_ok]
  rw [if_neg (by rw [hlen]; exact not_lt.mpr (nbytes_le_four c.size))]
  simp only [parseNibe_encBytes ws c.size v hsz]
  rw [if_neg (by simp [hlim]), hfrv]
  rfl

/-- A u8 coil bounded to raw 1..2, the shape used by
test_read_coil_out_of_range. -/
def boundedU8 : Coil :=
  { basicCoil .u8 with
    raw_min := some 1
    raw_max := some 2
    min := some 1
    max := some 2 }

/-- Witness for C10: the bounded u8 coil rejects the raw reading 0 with a
decode error. -/
theorem c10_decode_rejects_out_of_bounds_witness :
    from_raw_value boundedU8 0 = .error .assertion
  ∧ nibeDecode (some true) boundedU8
        (pad4 (encBytesNibe true boundedU8.size 0)) = .error .decodeException :=
  c10_decode_rejects_out_of_bounds true boundedU8 0
    (by decide) (by decide) (.inl ⟨1, rfl, by decide⟩)

/-! ## Claim C3: retry policy (tenacity wrappers in nibegw.py and modbus.py) -/

/-- One step of the tenacity retry loop: `att i` is the outcome of the
0-based attempt `i`, `fuel` the number of retries still allowed by
`stop_after_attempt`. Returns the final outcome and the number of attempts
made. With `reraise=True` the last exception is re-raised unchanged. -/
def retryGo {α : Type} (retryOn : NibeExc → Bool) (att : ℕ → Except NibeExc α) :
    ℕ → ℕ → Except NibeExc α × ℕ
  | i, 0 => (att i, i + 1)
  | i, fuel + 1 =>
    match att i with
    | .ok a => (.ok a, i + 1)
    | .error e =>
      if retryOn e then retryGo retryOn att (i + 1) fuel else (.error e, i + 1)

/-- tenacity `retry(retry=retry_if_exception_type(E), stop=stop_after_attempt(n),
reraise=True)` as applied to read_coil/write_coil in NibeGW.__init__
(nibegw.py:127) and Modbus.__init__ (modbus.py:81): retry while the raised
exception is an instance of E, for at most `n` attempts. -/
def retryCall {α : Type} (retryOn : NibeExc → Bool) (stopAfter : ℕ)
    (att : ℕ → Except NibeExc α) : Except NibeExc α × ℕ :=
  retryGo retryOn att 0 (stopAfter - 1)

/-- `Modbus.write_coil` completion (modbus.py:182): a falsy transport result
raises WriteIOException("Heatpump denied writing ..."). -/
def modbusWriteComplete (result : Bool) : Except NibeExc Unit :=
  if result then .ok () else .error .writeIOBase

/-- Claim C3 counterexample: on the Modbus path a write denied by the pump is
raised as WriteIOException — the class the retry wrapper retries on — so with
the default budget of 3 a persistently denied write is attempted three times
rather than failing on the first attempt. -/
theorem c3_retry_counterexample :
    modbusWriteComplete false = .error .writeIOBase
  ∧ isWriteIOException .writeIOBase = true
  ∧ (retryCall isWriteIOException 3 (fun _ => modbusWriteComplete false)).2 = 3
  ∧ (retryCall isWriteIOException 3 (fun _ => modbusWriteComplete false)).2 ≠ 1 := by
  decide

/-- Claim C3 (amended): read_coil and write_coil retry exactly on exceptions
of the ReadIOException/WriteIOException classes, up to the configured attempt
budget (default 3), re-raising the last exception when every attempt fails,
and succeed immediately on a successful attempt; on the UDP path the semantic
failures — WriteDeniedException for a denied write and ReadException for a
decode failure — are outside those classes and are never retried, while on
the Modbus path a denied write is raised as WriteIOException and is retried. -/
theorem c3_retry_amended :
    (∀ (α : Type) (retryOn : NibeExc → Bool) (n : ℕ)
        (att : ℕ → Except NibeExc α) (e : NibeExc),
        att 0 = .error e → retryOn e = false →
        retryCall retryOn n att = (.error e, 1))
  ∧ (∀ (α : Type) (retryOn : NibeExc → Bool) (att : ℕ → Except NibeExc α),
        (∀ i, i < 3 → ∃ e, att i = .error e ∧ retryOn e = true) →
        retryCall retryOn 3 att = (att 2, 3))
  ∧ (∀ (α : Type) (retryOn : NibeExc → Bool) (n : ℕ)
        (att : ℕ → Except NibeExc α) (a : α),
        att 0 = .ok a → retryCall retryOn n att = (.ok a, 1))
  ∧ isWriteIOException .writeDenied = false
  ∧ isReadIOException .readBase = false
  ∧ isReadIOException .readTimeout = true
  ∧ isWriteIOException .writeTimeout = true
  ∧ modbusWriteComplete false = .error .writeIOBase
  ∧ isWriteIOException .writeIOBase = true
  ∧ nibegwWriteOutcome 0 = .error .writeDenied := by
  refine ⟨?_, ?_, ?_, rfl, rfl, rfl, rfl, rfl, rfl, rfl⟩
  · intro α retryOn n att e h0 hr
    unfold retryCall
    cases hn : n - 1 with
    | zero => simp [retryGo, h0]
    | succ m => simp [retryGo, h0, hr]
  · intro α retryOn att h
    obtain ⟨e0, h0, r0⟩ := h 0 (by omega)
    obtain ⟨e1, h1, r1⟩ := h 1 (by omega)
    unfold retryCall
    simp [retryGo, h0, r0, h1, r1]
  · intro α retryOn n att a h0
    unfold retryCall
    cases hn : n - 1 with
    | zero => simp [retryGo, h0]
    | succ m => simp [retryGo, h0]

/-- Witness for C3 (amended): a UDP write denied by the pump fails on the
first attempt without retrying; a read that times out on every attempt is
attempted three times and re-raises the timeout; an immediately successful
attempt returns at once. -/
theorem c3_retry_amended_witness :
    retryCall isWriteIOException 3 (fun _ => nibegwWriteOutcome 0) =
      (.error .writeDenied, 1)
  ∧ retryCall isReadIOException 3
      (fun _ => (.error .readTimeout : Except NibeExc Unit)) =
      (.error .readTimeout, 3)
  ∧ retryCall isReadIOException 3 (fun _ => (.ok 7 : Except NibeExc ℕ)) =
      (.ok 7, 1) := by
  refine ⟨?_, ?_, ?_⟩
  · exact c3_retry_amended.1 Unit isWriteIOException 3 _ .writeDenied rfl rfl
  · exact c3_retry_amended.2.1 Unit isReadIOException _
      (fun i _ => ⟨.readTimeout, rfl, rfl⟩)
  · exact c3_retry_amended.2.2.1 ℕ isReadIOException 3 _ 7 rfl

/-! ## Claim C4: the read_coils stream (connection/init.py:34) -/

/-- How the `read_coils` async generator terminates. -/
inductive StreamEnd
  | done
  | group (errs : List NibeExc)
  | raised (e : NibeExc)
deriving DecidableEq, Repr

/-- The body of `Connection.read_coils` over the per-coil outcomes of
`read_coil`: successes are yielded, ReadIOException failures are appended to
`exceptions`, and any other exception propagates out of the generator at once
(the third component). -/
def readCoilsAux :
    List (Except NibeExc CoilData) → List CoilData × List NibeExc × Option NibeExc
  | [] => ([], [], none)
  | .ok cd :: rest =>
    let r := readCoilsAux rest
    (cd :: r.1, r.2.1, r.2.2)
  | .error e :: rest =>
    if isReadIOException e then
      let r := readCoilsAux rest
      (r.1, e :: r.2.1, r.2.2)
    else ([], [], some e)

/-- `Connection.read_coils` observed behaviour: the items yielded and how the
stream ends — normally, with the ReadExceptionGroup raised after the last
item, or aborted by an uncaught exception. -/
def readCoilsResult (outs : List (Except NibeExc CoilData)) :
    List CoilData × StreamEnd :=
  let r := readCoilsAux outs
  match r.2.2 with
  | some e => (r.1, .raised e)
  | none => (r.1, if r.2.1 = [] then .done else .group r.2.1)

/-- The successful outcomes, in order. -/
def okValues (outs : List (Except NibeExc CoilData)) : List CoilData :=
  outs.filterMap (fun o => match o with | .ok cd => some cd | .error _ => none)

/-- The failed outcomes, in order. -/
def errValues (outs : List (Except NibeExc CoilData)) : List NibeExc :=
  outs.filterMap (fun o => match o with | .ok _ => none | .error e => some e)

/-- Claim C4 counterexample: a read failure that is not a ReadIOException
(NibeGW.read_coil raises plain ReadException on a decode failure) aborts the
stream at once — the later successful coil is never reached and no group
error is produced — contradicting "every per-coil failure is collected,
iteration continues to the last coil". -/
theorem c4_read_coils_counterexample :
    readCoilsResult [.error .readBase, .ok ⟨basicCoil .u8, some (.vInt 1)⟩] =
      ([], .raised .readBase)
  ∧ isReadIOException .readBase = false := by
  decide

theorem readCoilsAux_all_io (outs : List (Except NibeExc CoilData))
    (h : ∀ e, .error e ∈ outs → isReadIOException e = true) :
    readCoilsAux outs = (okValues outs, errValues outs, none) := by
  induction outs with
  | nil => rfl
  | cons o rest ih =>
    have hrest : ∀ e, .error e ∈ rest → isReadIOException e = true :=
      fun e he => h e (List.mem_cons_of_mem _ he)
    cases o with
    | ok cd =>
      simp [readCoilsAux, ih hrest, okValues, errValues]
    | error e =>
      have he : isReadIOException e = true := h e (List.mem_cons_self _ _)
      simp [readCoilsAux, he, ih hrest, okValues, errValues]

theorem readCoilsAux_abort (pre : List (Except NibeExc CoilData)) (e : NibeExc)
    (rest : List (Except NibeExc CoilData))
    (hpre : ∀ e2, .error e2 ∈ pre → isReadIOException e2 = true)
    (he : isReadIOException e = false) :
    readCoilsAux (pre ++ .error e :: rest) = (okValues pre, errValues pre, some e) := by
  induction pre with
  | nil => simp [readCoilsAux, he, okValues, errValues]
  | cons o p ih =>
    have hp : ∀ e2, .error e2 ∈ p → isReadIOException e2 = true :=
      fun e2 h2 => hpre e2 (List.mem_cons_of_mem _ h2)
    cases o with
    | ok cd =>
      simp [readCoilsAux, okValues, errValues, ih hp]
    | error e2 =>
      have he2 : isReadIOException e2 = true := hpre e2 (List.mem_cons_self _ _)
      simp [readCoilsAux, he2, okValues, errValues, ih hp]

/-- Claim C4 (amended): per-coil failures of the retryable I/O class are
collected while iteration continues to the last coil, with all successes
yielded in order and a single group error holding exactly those failures
raised only after the last item (and no error when none failed); a failure
outside the I/O class, however, is raised immediately, ending the stream
after the successes that preceded it. -/
theorem c4_read_coils_amended :
    (∀ (outs : List (Except NibeExc CoilData)),
        (∀ e, .error e ∈ outs → isReadIOException e = true) →
        readCoilsResult outs =
          (okValues outs,
            if errValues outs = [] then .done else .group (errValues outs)))
  ∧ (∀ (pre : List (Except NibeExc CoilData)) (e : NibeExc)
        (rest : List (Except NibeExc CoilData)),
        (∀ e2, .error e2 ∈ pre → isReadIOException e2 = true) →
        isReadIOException e = false →
        readCoilsResult (pre ++ .error e :: rest) = (okValues pre, .raised e)) := by
  constructor
  · intro outs h
    unfold readCoilsResult
    rw [readCoilsAux_all_io outs h]
  · intro pre e rest hpre he
    unfold readCoilsResult
    rw [readCoilsAux_abort pre e rest hpre he]

/-- Witness for C4 (amended): with one success, one timeout (I/O class) and a
further success, everything is yielded and the group error carrying the
timeout is raised at the end; with a non-I/O ReadException in second
position the single preceding success is yielded and the exception is raised
immediately. -/
theorem c4_read_coils_amended_witness :
    readCoilsResult
        [.ok ⟨basicCoil .u8, some (.vInt 1)⟩, .error .readTimeout,
         .ok ⟨basicCoil .u8, some (.vInt 2)⟩] =
      ([⟨basicCoil .u8, some (.vInt 1)⟩, ⟨basicCoil .u8, some (.vInt 2)⟩],
        .group [.readTimeout])
  ∧ readCoilsResult
        [.ok ⟨basicCoil .u8, some (.vInt 1)⟩, .error .readBase,
         .ok ⟨basicCoil .u8, some (.vInt 2)⟩] =
      ([⟨basicCoil .u8, some (.vInt 1)⟩], .raised .readBase) := by
  constructor
  · have := c4_read_coils_amended.1
      [.ok ⟨basicCoil .u8, some (.vInt 1)⟩, .error .readTimeout,
       .ok ⟨basicCoil .u8, some (.vInt 2)⟩] (by decide)
    simpa using this
  · have := c4_read_coils_amended.2
      [.ok ⟨basicCoil .u8, some (.vInt 1)⟩] .readBase
      [.ok ⟨basicCoil .u8, some (.vInt 2)⟩] (by decide) (by decide)
    simpa using this

/-! ## Claim C6: MODBUS_DATA_MSG table-frame processing (nibegw.py:450) -/

/-- `table_processing_mode` of NibeGW.__init__. -/
inductive TableMode
  | permissive | strict
deriving DecidableEq, Repr

/-- Ordered insert into the address-sorted association list that models the
`data` dict of `_on_response` with its by-minimum iteration; inserting an
existing address overwrites it (dict update, later rows win). -/
def insertRow : List (ℕ × List ℕ) → ℕ → List ℕ → List (ℕ × List ℕ)
  | [], a, v => [(a, v)]
  | (b, w) :: rest, a, v =>
    if a < b then (a, v) :: (b, w) :: rest
    else if a = b then (a, v) :: rest
    else (b, w) :: insertRow rest a v

/-- The dict comprehension of `_on_response` for MODBUS_DATA_MSG
(nibegw.py:219): rows keyed by coil address, rows with address 0xFFFF
dropped. -/
def buildDataMap (rows : List (ℕ × List ℕ)) : List (ℕ × List ℕ) :=
  rows.foldl (fun m r => if r.1 = 0xFFFF then m else insertRow m r.1 r.2) []

/-- Accumulate one row's decode outcome in `_on_raw_coil_set`: a success is
collected; a DecodeException marks `decode_exception_occurred`; any other
NibeException is handled without setting the flag. -/
def combineRow (r : Except NibeError CoilData) (p : List CoilData × Bool) :
    List CoilData × Bool :=
  match r with
  | .ok cd => (cd :: p.1, p.2)
  | .error .decodeException => (p.1, true)
  | .error _ => p

/-- The `while data:` loop of `_on_raw_coil_set` (nibegw.py:453) over the
address-sorted map: pop the minimal address, look the coil up
(CoilNotFoundException rows are skipped without setting the flag), pop the
following address too when the coil is 32 bits wide, and decode. Returns the
successfully decoded rows in order and the decode-failure flag. -/
def onRawCoilSet (dec : Coil → List ℕ → Except NibeError CoilData)
    (lookup : ℕ → Option Coil) : List (ℕ × List ℕ) → List CoilData × Bool
  | [] => ([], false)
  | [(a, v)] =>
    match lookup a with
    | none => ([], false)
    | some coil => combineRow (dec coil v) ([], false)
  | (a, v) :: (b, w) :: rest2 =>
    match lookup a with
    | none => onRawCoilSet dec lookup ((b, w) :: rest2)
    | some coil =>
      if coil.size = .u32 ∨ coil.size = .s32 then
        if b = a + 1 then
          combineRow (dec coil (v ++ w)) (onRawCoilSet dec lookup rest2)
        else combineRow (dec coil v) (onRawCoilSet dec lookup ((b, w) :: rest2))
      else combineRow (dec coil v) (onRawCoilSet dec lookup ((b, w) :: rest2))

/-- The emission gate at the end of `_on_raw_coil_set` (nibegw.py:468):
permissive mode always emits the successes; strict mode emits them only when
no decode exception occurred. -/
def emitTable (mode : TableMode) (p : List CoilData × Bool) : List CoilData :=
  if mode = .permissive ∨ (mode = .strict ∧ p.2 = false) then p.1 else []

/-- End-to-end processing of one MODBUS_DATA_MSG frame: the coil updates the
frame emits. -/
def processDataMsg (ws : Option Bool) (lookup : ℕ → Option Coil)
    (mode : TableMode) (rows : List (ℕ × List ℕ)) : List CoilData :=
  emitTable mode (onRawCoilSet (nibeDecode ws) lookup (buildDataMap rows))

theorem insertRow_mem (m : List (ℕ × List ℕ)) (a : ℕ) (v : List ℕ)
    (p : ℕ × List ℕ) (hp : p ∈ insertRow m a v) : p ∈ m ∨ p.1 = a := by
  induction m with
  | nil =>
    simp [insertRow] at hp
    simp [hp]
  | cons b rest ih =>
    obtain ⟨b1, b2⟩ := b
    unfold insertRow at hp
    split at hp
    · rcases List.mem_cons.mp hp with h | h
      · right; rw [h]
      · left; exact h
    · split at hp
      · rcases List.mem_cons.mp hp with h | h
        · right; rw [h]
        · left; exact List.mem_cons_of_mem _ h
      · rcases List.mem_cons.mp hp with h | h
        · left; rw [h]; exact List.mem_cons_self _ _
        · rcases ih h with h2 | h2
          · left; exact List.mem_cons_of_mem _ h2
          · right; exact h2

theorem buildDataMap_go_no_padding (rows : List (ℕ × List ℕ))
    (m : List (ℕ × List ℕ)) (hm : ∀ p ∈ m, p.1 ≠ 0xFFFF) :
    ∀ p ∈ rows.foldl
        (fun m r => if r.1 = 0xFFFF then m else insertRow m r.1 r.2) m,
      p.1 ≠ 0xFFFF := by
  induction rows generalizing m with
  | nil => exact hm
  | cons r rest ih =>
    simp only [List.foldl_cons]
    apply ih
    intro p hp
    by_cases hr : r.1 = 0xFFFF
    · rw [if_pos hr] at hp
      exact hm p hp
    · rw [if_neg hr] at hp
      rcases insertRow_mem _ _ _ _ hp with h | h
      · exact hm p h
      · rw [h]; exact hr

theorem getParserSwap_error_cases (ws : Option Bool) (sz : CSize) (pe : PyErr)
    (h : getParserSwap ws sz = .error pe) : pe = .valueError := by
  unfold getParserSwap at h
  split at h
  · injection h with h2
    exact h2.symm
  · exact absurd h (by simp)

theorem from_raw_value_error_cases (c : Coil) (v : ℤ) (e : PyErr)
    (h : from_raw_value c v = .error e) : e = .assertion ∨ e = .validation := by
  unfold from_raw_value at h
  split at h
  · injection h with h2
    exact Or.inl h2.symm
  · split at h
    · exact absurd h (by simp)
    · split at h
      · unfold get_mapping_for at h
        split at h
        · exact Or.inr (by injection h with h2; exact h2.symm)
        · split at h
          · exact absurd h (by simp [except_map_ok])
          · exact Or.inr (by
              rw [except_map_err] at h
              injection h with h2
              exact h2.symm)
      · split at h
        · exact absurd h (by simp)
        · exact absurd h (by simp)

theorem nibeDecode_error_is_decode (ws : Option Bool) (c : Coil)
    (raw : List ℕ) (e : NibeError) (h : nibeDecode ws c raw = .error e) :
    e = .decodeException := by
  unfold nibeDecode at h
  cases hg : getParserSwap ws c.size with
  | error pe =>
    rw [hg, except_bind_err] at h
    rw [getParserSwap_error_cases ws c.size pe hg] at h
    injection h with h2
    exact h2.symm
  | ok sw =>
    rw [hg, except_bind_ok] at h
    split at h
    · injection h with h2
      exact h2.symm
    · split at h
      · exact absurd h (by simp [wrapDecode])
      · cases hf : from_raw_value c (parseNibe c.size sw raw) with
        | ok cd =>
          rw [hf] at h
          exact absurd h (by simp [wrapDecode])
        | error pe =>
          rw [hf] at h
          rcases from_raw_value_error_cases _ _ _ hf with h1 | h1 <;>
            rw [h1] at h <;>
            (injection h with h2; exact h2.symm)

/-- Claim C6: rows with address 0xFFFF never enter table processing; in
permissive mode every successfully decoded row is emitted even when other
rows fail; in strict mode a frame in which a decode failure occurred emits
nothing (and every failure of the coil decoder is a DecodeException, so it
sets that flag); and a 32-bit register consumes the row at its address
together with the row at the following address, decoding their four bytes
as one value. -/
theorem c6_table_frame_processing :
    (∀ (rows : List (ℕ × List ℕ)) (p : ℕ × List ℕ),
        p ∈ buildDataMap rows → p.1 ≠ 0xFFFF)
  ∧ (∀ (ws : Option Bool) (lookup : ℕ → Option Coil)
        (rows : List (ℕ × List ℕ)),
        processDataMsg ws lookup .permissive rows =
          (onRawCoilSet (nibeDecode ws) lookup (buildDataMap rows)).1)
  ∧ (∀ (ws : Option Bool) (lookup : ℕ → Option Coil)
        (rows : List (ℕ × List ℕ)),
        (onRawCoilSet (nibeDecode ws) lookup (buildDataMap rows)).2 = true →
        processDataMsg ws lookup .strict rows = [])
  ∧ (∀ (ws : Option Bool) (c : Coil) (raw : List ℕ) (e : NibeError),
        nibeDecode ws c raw = .error e → e = .decodeException)
  ∧ (∀ (dec : Coil → List ℕ → Except NibeError CoilData)
        (lookup : ℕ → Option Coil) (a : ℕ) (v w : List ℕ)
        (rest : List (ℕ × List ℕ)) (coil : Coil),
        lookup a = some coil → (coil.size = .u32 ∨ coil.size = .s32) →
        onRawCoilSet dec lookup ((a, v) :: (a + 1, w) :: rest) =
          combineRow (dec coil (v ++ w)) (onRawCoilSet dec lookup rest)) := by
  refine ⟨?_, ?_, ?_, nibeDecode_error_is_decode, ?_⟩
  · intro rows p hp
    exact buildDataMap_go_no_padding rows [] (by simp) p hp
  · intro ws lookup rows
    unfold processDataMsg emitTable
    rw [if_pos (Or.inl rfl)]
  · intro ws lookup rows hflag
    unfold processDataMsg emitTable
    rw [if_neg]
    simp [hflag]
  · intro dec lookup a v w rest coil hl h32
    simp only [onRawCoilSet, hl]
    rw [if_pos h32]
    simp

/-- Lookup with a single u8 coil at address 1 (a decode of its empty row
fails). -/
def lookupFail : ℕ → Option Coil :=
  fun a => if a = 1 then some (basicCoil .u8) else none

/-- Lookup with a single u32 coil at address 10. -/
def lookup32 : ℕ → Option Coil :=
  fun a => if a = 10 then some (basicCoil .u32) else none

/-- Witness for C6 at concrete frames: a padding row is absent from the data
map; a strict-mode frame whose only row fails to decode emits nothing; a
32-bit coil at address 10 consumes the rows at 10 and 11 as one 4-byte
value. -/
theorem c6_table_frame_processing_witness :
    ¬ ((0xFFFF, ([] : List ℕ)) ∈ buildDataMap [(0xFFFF, []), (1, [2, 0])])
  ∧ processDataMsg (some true) lookupFail .strict [(1, [])] = []
  ∧ onRawCoilSet (nibeDecode (some true)) lookup32 [(10, [1, 0]), (11, [0, 0])] =
      combineRow (nibeDecode (some true) (basicCoil .u32) ([1, 0] ++ [0, 0]))
        (onRawCoilSet (nibeDecode (some true)) lookup32 []) := by
  refine ⟨fun hmem => c6_table_frame_processing.1 _ _ hmem rfl, ?_, ?_⟩
  · exact c6_table_frame_processing.2.2.1 (some true) lookupFail [(1, [])]
      (by decide)
  · exact c6_table_frame_processing.2.2.2.2 (nibeDecode (some true)) lookup32
      10 [1, 0] [0, 0] [] (basicCoil .u32) (by decide) (Or.inl rfl)

/-! ## Claim C9: boolean derivation at coil construction (coil.py) -/

/-- `Coil.set_mappings` (coil.py:101): a falsy mapping dict clears the
mappings, otherwise labels are uppercased. -/
def setMappings (m : Option (List (String × String))) :
    Option (List (String × String)) :=
  match m with
  | none => none
  | some l => if l = [] then none else some (l.map (fun p => (p.1, strUpper p.2)))

/-- `is_coil_boolean` (coil.py:11): factor must be 1; boolean by scaled
bounds 0..1 or by a (present, nonempty) mapping whose keys all lie in
0 and 1. -/
def is_coil_boolean (c : Coil) : Bool :=
  if c.factor ≠ 1 then false
  else if c.min = some 0 ∧ c.max = some 1 then true
  else
    match c.mappings with
    | some l => decide (l ≠ []) && l.all (fun p => decide (p.1 = "0" ∨ p.1 = "1"))
    | none => false

/-- The descriptor after the plain field assignments of `Coil.__init__`
(address through scaled min/max), before the boolean derivation. -/
def baseCoil (address : ℕ) (name title : String) (size : CSize) (factor : ℤ)
    (write : Bool) (maps : Option (List (String × String))) (ctype : CoilType)
    (rmin rmax : Option ℤ) : Coil :=
  { address := address, name := name, title := title, size := size,
    factor := factor, is_writable := write, mappings := maps,
    raw_min := rmin, raw_max := rmax,
    min := rmin.map (fun m => (m : ℚ) / (factor : ℚ)),
    max := rmax.map (fun m => (m : ℚ) / (factor : ℚ)),
    ctype := ctype, is_boolean := false, is_date := ctype = .date }

/-- The tail of `Coil.__init__` (coil.py:93): derive is_boolean and, for a
boolean coil without mappings, synthesize the OFF/ON mapping. -/
def finishCoil (c0 : Coil) : Coil :=
  { c0 with
    is_boolean := is_coil_boolean c0
    mappings := if is_coil_boolean c0 ∧ c0.mappings = none then
        setMappings (some [("0", "OFF"), ("1", "ON")])
      else c0.mappings }

/-- `Coil.__init__` (coil.py:30): the asserts (nonempty name and title,
truthy factor, factor 1 when a mapping is passed, no mapping on a date coil)
fail the construction; otherwise the finished descriptor is produced. -/
def mkCoil (address : ℕ) (name title : String) (size : CSize) (factor : ℤ)
    (write : Bool) (mappings : Option (List (String × String)))
    (ctype : CoilType) (rmin rmax : Option ℤ) : Option Coil :=
  if name = "" ∨ title = "" ∨ factor = 0 then none
  else if mappings.isSome ∧ factor ≠ 1 then none
  else if (setMappings mappings).isSome ∧ ctype = .date then none
  else some (finishCoil
    (baseCoil address name title size factor write (setMappings mappings)
      ctype rmin rmax))

theorem setMappings_ne_nil (m : Option (List (String × String)))
    (l : List (String × String)) (h : setMappings m = some l) : l ≠ [] := by
  cases m with
  | none => simp [setMappings] at h
  | some l0 =>
    by_cases h0 : l0 = []
    · simp [setMappings, h0] at h
    · simp only [setMappings, if_neg h0] at h
      injection h with h2
      intro hnil
      rw [← h2] at hnil
      simp at hnil
      exact h0 hnil

theorem is_coil_boolean_base (address : ℕ) (name title : String) (size : CSize)
    (factor : ℤ) (write : Bool) (maps : Option (List (String × String)))
    (ctype : CoilType) (rmin rmax : Option ℤ)
    (hmaps : ∀ l, maps = some l → l ≠ []) :
    is_coil_boolean
        (baseCoil address name title size factor write maps ctype rmin rmax) =
      true ↔
    factor = 1 ∧ ((rmin = some 0 ∧ rmax = some 1) ∨
      (∃ l, maps = some l ∧ ∀ p ∈ l, p.1 = "0" ∨ p.1 = "1")) := by
  unfold is_coil_boolean baseCoil
  by_cases hf : factor = 1
  · subst hf
    rw [if_neg (by simp)]
    have hmin : (rmin.map (fun m => (m : ℚ) / ((1 : ℤ) : ℚ))) = some 0 ↔
        rmin = some 0 := by
      cases rmin with
      | none => simp
      | some m => simp [div_one]
    have hmax : (rmax.map (fun m => (m : ℚ) / ((1 : ℤ) : ℚ))) = some 1 ↔
        rmax = some 1 := by
      cases rmax with
      | none => simp
      | some m => simp [div_one]
    by_cases hb : rmin = some 0 ∧ rmax = some 1
    · rw [if_pos (by simp [hmin, hmax, hb])]
      simp [hb]
    · rw [if_neg (by rw [hmin, hmax]; exact hb)]
      cases hm : maps with
      | none => simp [hb]
      | some l =>
        have hne := hmaps l hm
        simp [hne, hb, List.all_eq_true]
  · rw [if_pos (by simpa using hf)]
    simp [hf]

/-- Claim C9: for every successfully constructed descriptor, the derived
is_boolean flag holds exactly when the factor is 1 and either the raw bounds
are 0..1 or a (nonempty) mapping whose keys all lie in 0 and 1 was given;
and a descriptor that is boolean by bounds with no mapping given receives the
synthesized mapping 0 to OFF, 1 to ON at construction. -/
theorem c9_is_boolean_derivation (address : ℕ) (name title : String)
    (size : CSize) (factor : ℤ) (write : Bool)
    (mappings : Option (List (String × String))) (ctype : CoilType)
    (rmin rmax : Option ℤ) (c : Coil)
    (h : mkCoil address name title size factor write mappings ctype rmin rmax =
      some c) :
    (c.is_boolean = true ↔
      factor = 1 ∧ ((rmin = some 0 ∧ rmax = some 1) ∨
        (∃ l, setMappings mappings = some l ∧ ∀ p ∈ l, p.1 = "0" ∨ p.1 = "1")))
  ∧ (factor = 1 → rmin = some 0 → rmax = some 1 → setMappings mappings = none →
      c.mappings = some [("0", "OFF"), ("1", "ON")]) := by
  unfold mkCoil at h
  split at h
  · exact absurd h (by simp)
  · split at h
    · exact absurd h (by simp)
    · split at h
      · exact absurd h (by simp)
      · injection h with h2
        subst h2
        constructor
        · show is_coil_boolean _ = true ↔ _
          exact is_coil_boolean_base address name title size factor write
            (setMappings mappings) ctype rmin rmax
            (fun l hl => setMappings_ne_nil mappings l hl)
        · intro hf h0 h1 hnone
          subst hf h0 h1
          show (if is_coil_boolean _ ∧ _ then _ else _) = _
          rw [if_pos]
          · decide
          · constructor
            · rw [is_coil_boolean_base address name title size 1 write
                (setMappings mappings) ctype (some 0) (some 1)
                (fun l hl => setMappings_ne_nil mappings l hl)]
              exact ⟨rfl, Or.inl ⟨rfl, rfl⟩⟩
            · exact hnone

/-- Witness for C9: a u8 coil with factor 1 and raw bounds 0..1 and no given
mapping is boolean and receives the synthesized OFF/ON mapping. -/
theorem c9_is_boolean_derivation_witness :
    (mkCoil 1 "t" "t" .u8 1 false none .number (some 0) (some 1)).map
        (fun c => (c.is_boolean, c.mappings)) =
      some (true, some [("0", "OFF"), ("1", "ON")]) := by
  cases hm : mkCoil 1 "t" "t" .u8 1 false none .number (some 0) (some 1) with
  | none =>
    have : (mkCoil 1 "t" "t" .u8 1 false none .number (some 0) (some 1)).isSome :=
      by decide
    rw [hm] at this
    cases this
  | some c =>
    obtain ⟨h1, h2⟩ := c9_is_boolean_derivation 1 "t" "t" .u8 1 false none
      .number (some 0) (some 1) c hm
    have hb : c.is_boolean = true := h1.mpr ⟨rfl, Or.inl ⟨rfl, rfl⟩⟩
    have hmap : c.mappings = some [("0", "OFF"), ("1", "ON")] := h2 rfl rfl rfl rfl
    simp [hb, hmap]

end Nibe
